import Mathlib

/-!
Verification development for the document-refresh assistant
(`document_analyzer.py`, `family_analyzer.py`, `intent_extractor.py`,
`document_generator.py`).

The Python code is shallowly embedded: byte strings become `List Nat`
(one entry per byte, each < 256), Python `str` values become Lean
`String` (Python strings are sequences of code points, as is
`String.data`), dictionaries parsed from JSON become structures with
`Option` fields (a `none` field models an absent key), exceptions become
`Except`/`Option` results, and the two external collaborators - the
word-processing parser (`python-docx`) and the hosted LLM completion
service - become explicit function parameters, as the specification
treats both as black boxes.

String primitives are re-implemented over `String.data` so that every
definition evaluates inside the kernel, mirroring Python's code-point
semantics (`lower`, `strip`, slicing, `endswith`, lexicographic
comparison).
-/

/-! ## String helpers (code-point level, mirroring Python `str` methods) -/

/-- Python `str.lower()` (ASCII case folding, which is all the dispatch
suffixes need). -/
def pyLower (s : String) : String := ⟨s.data.map Char.toLower⟩

/-- Python slicing `s[:n]` (first `n` code points). -/
def pyTake (s : String) (n : Nat) : String := ⟨s.data.take n⟩

/-- Whitespace characters stripped by Python `str.strip()`. -/
def isPyWs (c : Char) : Bool :=
  c = ' ' || c = '\t' || c = '\n' || c = '\r' || c = '\x0b' || c = '\x0c'

/-- Python `str.strip()`: remove leading and trailing whitespace. -/
def pyStrip (s : String) : String :=
  ⟨((s.data.dropWhile isPyWs).reverse.dropWhile isPyWs).reverse⟩

/-- Python truthiness of a string: non-empty. -/
def strTruthy (s : String) : Bool := !s.data.isEmpty

/-- Python `s.endswith(t)`: `t` is a suffix of `s` (by code points). -/
def strEndsWith (s t : String) : Bool := decide (t.data <:+ s.data)

/-- Lexicographic `≤` on code-point sequences: Python string comparison. -/
def charListLe : List Char → List Char → Bool
  | [], _ => true
  | _ :: _, [] => false
  | a :: as, b :: bs =>
    if a < b then true else if b < a then false else charListLe as bs

/-- Strict lexicographic `<` on code-point sequences. -/
def charListLt : List Char → List Char → Bool
  | [], [] => false
  | [], _ :: _ => true
  | _ :: _, [] => false
  | a :: as, b :: bs =>
    if a < b then true else if b < a then false else charListLt as bs

/-- Python `s <= t` on strings. -/
def strLeb (s t : String) : Bool := charListLe s.data t.data

/-- Python `s < t` on strings. -/
def strLtb (s t : String) : Bool := charListLt s.data t.data

/-- Python truthiness of an optional string (the merged
`argument or os.environ.get(...)` credential value): present and
non-empty. -/
def pyTruthy : Option String → Bool
  | none => false
  | some s => strTruthy s

/-! ## Byte decoding (`bytes.decode('utf-8')` / `bytes.decode('latin-1')`) -/

/-- A UTF-8 continuation byte (`0x80..0xBF`). -/
def isUtf8Cont (b : Nat) : Bool := 0x80 ≤ b && b < 0xC0

/-- Strict UTF-8 decoding of a byte list into code points, exactly as
Python's `bytes.decode('utf-8')`: rejects lone continuation bytes,
truncated sequences, overlong encodings, surrogates and code points
above `0x10FFFF`.  The `Nat` fuel bounds the recursion (one unit per
code point) so the definition is structurally recursive; callers pass
the byte-list length, which always suffices since every step consumes at
least one byte. -/
def utf8DecodeFuel : Nat → List Nat → Option (List Nat)
  | _, [] => some []
  | 0, _ :: _ => none
  | fuel + 1, b :: rest =>
    if b < 0x80 then
      (utf8DecodeFuel fuel rest).map (b :: ·)
    else if b < 0xC2 then none
    else if b < 0xE0 then
      match rest with
      | b1 :: rest' =>
        if isUtf8Cont b1 then
          (utf8DecodeFuel fuel rest').map (((b - 0xC0) * 0x40 + (b1 - 0x80)) :: ·)
        else none
      | [] => none
    else if b < 0xF0 then
      match rest with
      | b1 :: b2 :: rest' =>
        if isUtf8Cont b1 && isUtf8Cont b2 then
          let cp := (b - 0xE0) * 0x1000 + (b1 - 0x80) * 0x40 + (b2 - 0x80)
          if cp < 0x800 then none
          else if 0xD800 ≤ cp && cp < 0xE000 then none
          else (utf8DecodeFuel fuel rest').map (cp :: ·)
        else none
      | _ => none
    else if b < 0xF5 then
      match rest with
      | b1 :: b2 :: b3 :: rest' =>
        if isUtf8Cont b1 && isUtf8Cont b2 && isUtf8Cont b3 then
          let cp := (b - 0xF0) * 0x40000 + (b1 - 0x80) * 0x1000
            + (b2 - 0x80) * 0x40 + (b3 - 0x80)
          if cp < 0x10000 then none
          else if 0x110000 ≤ cp then none
          else (utf8DecodeFuel fuel rest').map (cp :: ·)
        else none
      | _ => none
    else none

/-- `bytes.decode('utf-8')`: code points on success, `none` models
`UnicodeDecodeError`. -/
def utf8Decode (bs : List Nat) : Option (List Nat) :=
  utf8DecodeFuel bs.length bs

/-- Build a string from decoded code points (all values produced by
`utf8Decode` and `latin1Decode` are valid scalar values). -/
def strOfCodepoints (cps : List Nat) : String := ⟨cps.map Char.ofNat⟩

/-- `bytes.decode('latin-1')`: each byte becomes the code point of the
same value; never fails. -/
def latin1Decode (bs : List Nat) : String := ⟨bs.map Char.ofNat⟩

/-! ## `document_analyzer.py`: text extraction -/

/-- A parsed word-processing document as `python-docx` exposes it: the
paragraph texts, and the tables as rows of cell texts. -/
structure DocxTable where
  rows : List (List String)
deriving DecidableEq

structure Docx where
  paragraphs : List String
  tables : List DocxTable
deriving DecidableEq

/-- One table row: keep the stripped text of each cell whose stripped
text is non-empty; join the kept cells with `" | "`; drop the row when
nothing is kept (`extract_text_from_docx`'s inner loops). -/
def rowLine (cells : List String) : Option String :=
  let row_text := cells.filterMap fun c =>
    let s := pyStrip c
    if s.data.isEmpty then none else some s
  if row_text.isEmpty then none else some (String.intercalate " | " row_text)

/-- The lines collected by `extract_text_from_docx`: paragraphs with
non-empty stripped text (kept unstripped), then the table rows in
document order. -/
def docxLines (doc : Docx) : List String :=
  doc.paragraphs.filter (fun t => !(pyStrip t).data.isEmpty)
    ++ (doc.tables.map (fun tb => tb.rows.filterMap rowLine)).flatten

/-- `extract_text_from_docx`: parse the bytes with the external
`python-docx` library (the `parse` parameter; `none` models any
exception it raises) and join the collected lines with newlines.  The
whole body is wrapped in `try/except` returning `""`, so a failed parse
yields the empty string rather than an error. -/
def extract_text_from_docx (parse : List Nat → Option Docx)
    (file_bytes : List Nat) : String :=
  match parse file_bytes with
  | none => ""
  | some doc => String.intercalate "\n" (docxLines doc)

/-- `extract_text_from_txt`: UTF-8 decoding with a Latin-1 fallback on
`UnicodeDecodeError`; Latin-1 decoding never fails, so the function is
total. -/
def extract_text_from_txt (file_bytes : List Nat) : String :=
  match utf8Decode file_bytes with
  | some cps => strOfCodepoints cps
  | none => latin1Decode file_bytes

/-- The typed failure raised by `extract_text` (`ValueError` in the
source). -/
inductive ExtractError where
  | UnsupportedFormat (msg : String)
deriving DecidableEq

/-- `extract_text`: dispatch on the lowercased filename suffix. -/
def extract_text (parse : List Nat → Option Docx) (file_bytes : List Nat)
    (filename : String) : Except ExtractError String :=
  let filename_lower := pyLower filename
  if strEndsWith filename_lower ".docx" then
    .ok (extract_text_from_docx parse file_bytes)
  else if strEndsWith filename_lower ".txt" then
    .ok (extract_text_from_txt file_bytes)
  else if strEndsWith filename_lower ".doc" then
    .error (.UnsupportedFormat
      "Legacy .doc format not supported. Please convert to .docx")
  else
    .ok (extract_text_from_txt file_bytes)

/-! ## JSON-ish values and dictionaries -/

/-- Values occurring in the JSON dictionaries the pipeline handles
(field records, analysis items). -/
inductive PyVal where
  | str (s : String)
  | bool (b : Bool)
  | strList (l : List String)
  | null
deriving DecidableEq

/-- A JSON object / Python dict with string keys and unique-key
insertion-order semantics. -/
abbrev PyDict := List (String × PyVal)

/-- `d[k]` / `d.get(k)`: the value at the first occurrence of key `k`. -/
def dictGet : PyDict → String → Option PyVal
  | [], _ => none
  | p :: rest, k => if p.1 = k then some p.2 else dictGet rest k

/-- `d[k] = v`: replace the value at key `k` in place, or append the new
pair when the key is absent (Python dict assignment). -/
def dictSet : PyDict → String → PyVal → PyDict
  | [], k, v => [(k, v)]
  | p :: rest, k, v => if p.1 = k then (k, v) :: rest else p :: dictSet rest k v

/-! ## `family_analyzer.py`: comparative analysis -/

/-- The `metadata` dict of an input document
(`{'created': ..., 'modified': ...}`); `none` models an absent key. -/
structure DocMeta where
  created : Option String
  modified : Option String
deriving DecidableEq

/-- An input document as passed to `analyze_document_family`:
`{'filename', 'content', 'metadata'}`.  `content` holds the
base64-decoded bytes; `content = none` models content whose base64
decoding raises (the surrounding `try` then drops the document).
`metadata = none` models an absent `metadata` key
(`doc.get('metadata', {})`). -/
structure PyDoc where
  filename : String
  content : Option (List Nat)
  metadata : Option DocMeta
deriving DecidableEq

/-- A surviving entry of `doc_texts` / `context_texts`:
`{'filename', 'text' (truncated), 'metadata'}`. -/
structure ExtractedDoc where
  filename : String
  text : String
  metadata : DocMeta
deriving DecidableEq

/-- One iteration of the extraction loop: decode, extract, keep the
document iff its stripped text is non-empty, truncating the kept text to
`limit` characters (`6000` for primary documents, `4000` for context
documents); any exception drops the document. -/
def extractDocEntry (parse : List Nat → Option Docx) (limit : Nat)
    (doc : PyDoc) : Option ExtractedDoc :=
  match doc.content with
  | none => none
  | some content_bytes =>
    match extract_text parse content_bytes doc.filename with
    | .error _ => none
    | .ok text =>
      if (pyStrip text).data.isEmpty then none
      else some ⟨doc.filename, pyTake text limit, doc.metadata.getD ⟨none, none⟩⟩

/-- The `doc_texts` list: documents surviving extraction, in input
order. -/
def survivors (parse : List Nat → Option Docx) (documents : List PyDoc) :
    List ExtractedDoc :=
  documents.filterMap (extractDocEntry parse 6000)

/-- The sort key `d['metadata'].get('created', '')`. -/
def createdKey (d : ExtractedDoc) : String := d.metadata.created.getD ""

/-- The comparison order `key=lambda d: d['metadata'].get('created', '')`. -/
def docLe (a b : ExtractedDoc) : Prop :=
  strLeb (createdKey a) (createdKey b) = true

instance : DecidableRel docLe := fun a b => by unfold docLe; infer_instance

/-- `doc_texts.sort(...)`: Python's `list.sort` is a stable ascending
sort by the key, modelled by the (stable) insertion sort. -/
def sortedSurvivors (parse : List Nat → Option Docx)
    (documents : List PyDoc) : List ExtractedDoc :=
  List.insertionSort docLe (survivors parse documents)

/-- One primary-document section of the comparison prompt
(1-based ordinal `i`). -/
def docSection (i : Nat) (dt : ExtractedDoc) : String :=
  "\n\n=== DOCUMENT " ++ toString i ++ ": " ++ dt.filename
    ++ " (created: " ++ (dt.metadata.created.getD "unknown date") ++ ") ===\n"
    ++ dt.text

def docSections : Nat → List ExtractedDoc → String
  | _, [] => ""
  | i, dt :: rest => docSection i dt ++ docSections (i + 1) rest

/-- `comparison_text` after the primary-document loop and the optional
user-context line. -/
def comparisonBase (doc_texts : List ExtractedDoc) (user_context : String) :
    String :=
  docSections 1 doc_texts
    ++ (if strTruthy user_context then "\n\nUser context: " ++ user_context
        else "")

/-- One context-document section. -/
def ctxSection (i : Nat) (ct : ExtractedDoc) : String :=
  "\n\n--- Context Doc " ++ toString i ++ ": " ++ ct.filename ++ " ---\n"
    ++ ct.text

def ctxSections : Nat → List ExtractedDoc → String
  | _, [] => ""
  | i, ct :: rest => ctxSection i ct ++ ctxSections (i + 1) rest

/-- Append the organizational-context block when any context document
survived. -/
def comparisonWithContext (base : String) (context_texts : List ExtractedDoc) :
    String :=
  if context_texts.isEmpty then base
  else base ++ "\n\n=== ORGANIZATIONAL CONTEXT DOCUMENTS ==="
    ++ ctxSections 1 context_texts

/-- The user-role message of the completion call
(`f"Analyze these {len(doc_texts)} related documents:\n{comparison_text}"`). -/
def analysisUserContent (n : Nat) (comparison_text : String) : String :=
  "Analyze these " ++ toString n ++ " related documents:\n" ++ comparison_text

/-- The full user message `analyze_document_family` sends, given the
inputs (used to state which prompt the LLM oracle is applied to). -/
def analysisPrompt (parse : List Nat → Option Docx) (documents : List PyDoc)
    (user_context : String) (context_documents : Option (List PyDoc)) :
    String :=
  let doc_texts := survivors parse documents
  let context_texts :=
    (context_documents.getD []).filterMap (extractDocEntry parse 4000)
  analysisUserContent doc_texts.length
    (comparisonWithContext
      (comparisonBase (List.insertionSort docLe doc_texts) user_context)
      context_texts)

/-- One element group of the `analysis` object
(`{'description': ..., 'items': [...]}`); items are passed through
verbatim, so they are modelled as generic JSON objects. -/
structure ElementGroup where
  description : String
  items : List PyDict
deriving DecidableEq

structure AnalysisBlock where
  stable_elements : ElementGroup
  variable_elements : ElementGroup
  emerging_elements : ElementGroup
deriving DecidableEq

/-- The JSON object parsed from the model's reply (`json.loads`); every
field is optional because the model may omit keys. -/
structure LLMFamilyResponse where
  family_type : Option String
  family_type_display : Option String
  document_count : Option Int
  date_range : Option String
  analysis : Option AnalysisBlock
  recommended_base : Option String
  confidence : Option ℚ
  summary : Option String
  organizational_context : Option String
deriving DecidableEq

/-- The dictionary `analyze_document_family` returns after
post-processing. -/
structure FamilyAnalysisResult where
  family_type : Option String
  family_type_display : Option String
  document_count : Nat
  date_range : Option String
  analysis : Option AnalysisBlock
  recommended_base : Option String
  base_document_text : String
  organizational_context : String
  confidence : Option ℚ
  summary : Option String
  single_document_fallback : Bool
deriving DecidableEq

/-- The failure taxonomy of the LLM-driven operations (the source raises
`ValueError` / re-raises; the spec names the conditions). -/
inductive Failure where
  | NotConfigured
  | NoExtractableText
  | CompletionError
deriving DecidableEq

/-- The literal `0.5` used for defaulted confidences. -/
def confidenceHalf : ℚ := ⟨1, 2, by decide, by decide⟩

/-- The degenerate single-document result stub. -/
def singleDocumentStub (d : ExtractedDoc) : FamilyAnalysisResult where
  family_type := some "unknown"
  family_type_display := some "Single Document"
  document_count := 1
  date_range := some (d.metadata.created.getD "unknown")
  analysis := some
    ⟨⟨"N/A for single document", []⟩,
     ⟨"N/A for single document", []⟩,
     ⟨"N/A for single document", []⟩⟩
  recommended_base := some d.filename
  base_document_text := d.text
  organizational_context := ""
  confidence := some confidenceHalf
  summary := some ("Only one document found: " ++ d.filename
    ++ ". Use single-document analysis instead.")
  single_document_fallback := true

/-- `analyze_document_family`.  `parse` is the external word-processing
parser; `llm` is the completion call (fixed system prompt elided; the
argument is the user message; `none` models a transport/JSON failure,
which the source re-raises); `endpoint`/`api_key` are the credential
values after the `argument or environment` merge. -/
def analyze_document_family (parse : List Nat → Option Docx)
    (llm : String → Option LLMFamilyResponse) (documents : List PyDoc)
    (user_context : String) (context_documents : Option (List PyDoc))
    (endpoint api_key : Option String) :
    Except Failure FamilyAnalysisResult :=
  if !pyTruthy endpoint || !pyTruthy api_key then .error .NotConfigured
  else
    let doc_texts := survivors parse documents
    match doc_texts with
    | [] => .error .NoExtractableText
    | [d] => .ok (singleDocumentStub d)
    | _ :: _ :: _ =>
      let sorted := List.insertionSort docLe doc_texts
      match llm (analysisPrompt parse documents user_context
          context_documents) with
      | none => .error .CompletionError
      | some resp =>
        let recommended := resp.recommended_base.getD ""
        let base_text :=
          match sorted.find? (fun dt => decide (dt.filename = recommended)) with
          | some dt => dt.text
          | none => ""
        let base_text :=
          if base_text.data.isEmpty && !sorted.isEmpty then
            match sorted.getLast? with
            | some dt => dt.text
            | none => base_text
          else base_text
        .ok
          { family_type := resp.family_type
            family_type_display := resp.family_type_display
            document_count := doc_texts.length
            date_range := resp.date_range
            analysis := resp.analysis
            recommended_base := resp.recommended_base
            base_document_text := base_text
            organizational_context := resp.organizational_context.getD ""
            confidence := resp.confidence
            summary := resp.summary
            single_document_fallback := false }

/-! ## `intent_extractor.py` -/

/-- The JSON object parsed from the search-intent reply. -/
structure SearchIntentResponse where
  document_type : Option String
  search_terms : Option (List String)
  context_search_terms : Option (List String)
  summary : Option String
  confidence : Option ℚ
deriving DecidableEq

/-- The dictionary `extract_search_intent` returns. -/
structure SearchIntentResult where
  document_type : String
  search_terms : List String
  context_search_terms : List String
  summary : String
  confidence : ℚ
deriving DecidableEq

/-- `extract_search_intent`: check credentials, call the completion
service, then cap `search_terms` to the first 3 and
`context_search_terms` to the first 4 parsed elements and default the
remaining keys. -/
def extract_search_intent (llm : String → Option SearchIntentResponse)
    (user_prompt : String) (endpoint api_key : Option String) :
    Except Failure SearchIntentResult :=
  if !pyTruthy endpoint || !pyTruthy api_key then .error .NotConfigured
  else
    match llm user_prompt with
    | none => .error .CompletionError
    | some result => .ok
      { document_type := result.document_type.getD "unknown"
        search_terms := (result.search_terms.getD []).take 3
        context_search_terms := (result.context_search_terms.getD []).take 4
        summary := result.summary.getD ""
        confidence := result.confidence.getD confidenceHalf }

/-- The JSON object parsed from the legacy intent-extraction reply. -/
structure IntentResponse where
  intent : Option String
  document_type : Option String
  search_terms : Option (List String)
  extracted_fields : Option (List (String × String))
  confidence : Option ℚ
  summary : Option String
deriving DecidableEq

/-- The dictionary `extract_intent` returns. -/
structure IntentResult where
  intent : String
  document_type : String
  search_terms : List String
  extracted_fields : List (String × String)
  confidence : ℚ
  summary : String
deriving DecidableEq

/-- `extract_intent` (v5 path): check credentials, call the completion
service, default the missing keys (no caps on this path). -/
def extract_intent (llm : String → Option IntentResponse)
    (user_prompt : String) (endpoint api_key : Option String) :
    Except Failure IntentResult :=
  if !pyTruthy endpoint || !pyTruthy api_key then .error .NotConfigured
  else
    match llm user_prompt with
    | none => .error .CompletionError
    | some result => .ok
      { intent := result.intent.getD "unknown"
        document_type := result.document_type.getD "unknown"
        search_terms := result.search_terms.getD []
        extracted_fields := result.extracted_fields.getD []
        confidence := result.confidence.getD confidenceHalf
        summary := result.summary.getD "" }

/-- The value of `field.get('field_name', '')`. -/
def fieldNameOf (field : PyDict) : PyVal :=
  (dictGet field "field_name").getD (.str "")

/-- `field_name in extracted_fields` / `extracted_fields[field_name]`:
the overrides map has string keys, so only a string field name can
match. -/
def lookupOverride (extracted_fields : List (String × String))
    (field_name : PyVal) : Option String :=
  match field_name with
  | .str s => (extracted_fields.find? (fun p => decide (p.1 = s))).map (·.2)
  | _ => none

/-- The body of `merge_fields`'s loop: copy the field, then set
`new_value` and `pre_filled` according to whether the field's name is a
key of `extracted_fields`. -/
def mergeOneField (extracted_fields : List (String × String))
    (field : PyDict) : PyDict :=
  match lookupOverride extracted_fields (fieldNameOf field) with
  | some v =>
    dictSet (dictSet field "new_value" (.str v)) "pre_filled" (.bool true)
  | none =>
    dictSet (dictSet field "new_value"
        ((dictGet field "current_value").getD (.str "")))
      "pre_filled" (.bool false)

/-- `merge_fields`: one merged copy per original field, in order. -/
def merge_fields (original_fields : List PyDict)
    (extracted_fields : List (String × String)) : List PyDict :=
  original_fields.map (mergeOneField extracted_fields)

/-! ## `document_generator.py`: synthesis generation -/

/-- The JSON object parsed from the synthesis-generation reply, returned
verbatim by `generate_from_synthesis`. -/
structure SynthesisResponse where
  generated_text : Option String
  changes_applied : Option (List String)
  flags : Option (List PyDict)
  suggested_filename : Option String
deriving DecidableEq

/-- The user message `generate_from_synthesis` sends.  `dumps` models
`json.dumps(family_analysis, indent=2)` (external serialization). -/
def synthesisUserMsg (dumps : FamilyAnalysisResult → String)
    (family_analysis : FamilyAnalysisResult)
    (base_document_text user_changes organizational_context : String) :
    String :=
  "COMPARATIVE ANALYSIS:\n" ++ dumps family_analysis ++ "\n\n"
    ++ "MOST RECENT VERSION TEXT:\n" ++ pyTake base_document_text 8000
    ++ "\n\n"
    ++ (if strTruthy organizational_context then
        "ORGANIZATIONAL CONTEXT (recently discovered changes in the organization — incorporate where relevant):\n"
          ++ organizational_context ++ "\n\n"
        else "")
    ++ (if strTruthy user_changes then
        "USER REQUESTED CHANGES:\n" ++ user_changes ++ "\n\n" else "")
    ++ "Generate the complete new version."

/-- `generate_from_synthesis`: check credentials, format the system
prompt with `target_info` (the `llm` oracle takes `target_info` and the
user message; the fixed prompt template text is elided), and return the
parsed reply verbatim. -/
def generate_from_synthesis (dumps : FamilyAnalysisResult → String)
    (llm : String → String → Option SynthesisResponse)
    (family_analysis : FamilyAnalysisResult)
    (base_document_text user_changes target_year organizational_context :
      String)
    (endpoint api_key : Option String) : Except Failure SynthesisResponse :=
  if !pyTruthy endpoint || !pyTruthy api_key then .error .NotConfigured
  else
    let target_info := if strTruthy target_year then target_year
      else "next iteration"
    match llm target_info
        (synthesisUserMsg dumps family_analysis base_document_text
          user_changes organizational_context) with
    | none => .error .CompletionError
    | some result => .ok result

/-! ## Concrete fixtures used by witnesses and counterexamples -/

/-- A word-processing parser that always fails (no `.docx` fixture needs
to parse). -/
def parse0 : List Nat → Option Docx := fun _ => none

def bytesHi : List Nat := [104, 105]

def bytesYo : List Nat := [121, 111]

def bytesHey : List Nat := [104, 101, 121]

def docA : PyDoc := ⟨"a.txt", some bytesHi, some ⟨some "2023-01-01", none⟩⟩

def docB : PyDoc := ⟨"b.txt", some bytesYo, some ⟨some "2024-01-01", none⟩⟩

def docC : PyDoc := ⟨"c.txt", some bytesHey, some ⟨some "2025-01-01", none⟩⟩

def extA : ExtractedDoc := ⟨"a.txt", "hi", ⟨some "2023-01-01", none⟩⟩

def extB : ExtractedDoc := ⟨"b.txt", "yo", ⟨some "2024-01-01", none⟩⟩

def extC : ExtractedDoc := ⟨"c.txt", "hey", ⟨some "2025-01-01", none⟩⟩

/-- Whitespace-only text: extracted but dropped as empty after strip. -/
def docWs : PyDoc := ⟨"w.txt", some [32, 32], some ⟨none, none⟩⟩

/-- Legacy format: `extract_text` raises, the loop drops the document. -/
def docLegacy : PyDoc := ⟨"old.doc", some [104], none⟩

/-- An LLM reply with every key absent. -/
def respEmpty : LLMFamilyResponse :=
  ⟨none, none, none, none, none, none, none, none, none⟩

/-! ## C2: single surviving document returns the stub without an LLM call -/

/-- C2: whenever exactly one document survives extraction,
`analyze_document_family` returns, for every LLM oracle (so without
depending on any LLM call), the successful degenerate stub whose
`single_document_fallback` is `true`, whose `recommended_base` is the
sole survivor's filename, whose `base_document_text` is its truncated
extracted text, whose `confidence` is the fixed `0.5`, and whose three
element-group item lists are empty. -/
theorem analyze_single_document_stub (parse : List Nat → Option Docx)
    (llm : String → Option LLMFamilyResponse) (documents : List PyDoc)
    (user_context : String) (context_documents : Option (List PyDoc))
    (endpoint api_key : Option String) (d : ExtractedDoc)
    (he : pyTruthy endpoint = true) (hk : pyTruthy api_key = true)
    (h1 : survivors parse documents = [d]) :
    analyze_document_family parse llm documents user_context
        context_documents endpoint api_key = .ok (singleDocumentStub d)
    ∧ (singleDocumentStub d).single_document_fallback = true
    ∧ (singleDocumentStub d).recommended_base = some d.filename
    ∧ (singleDocumentStub d).base_document_text = d.text
    ∧ (singleDocumentStub d).confidence = some confidenceHalf
    ∧ (singleDocumentStub d).analysis.map
        (fun a => (a.stable_elements.items, a.variable_elements.items,
          a.emerging_elements.items)) = some ([], [], []) := by
  refine ⟨?_, rfl, rfl, rfl, rfl, rfl⟩
  simp only [analyze_document_family, he, hk, h1]
  rfl

theorem analyze_single_document_stub_witness :
    analyze_document_family parse0 (fun _ => none) [docA] "" none
      (some "e") (some "k") = .ok (singleDocumentStub extA) :=
  (analyze_single_document_stub parse0 (fun _ => none) [docA] "" none
    (some "e") (some "k") extA (by decide) (by decide) (by decide)).1

/-! ## C7: zero surviving documents fail with `NoExtractableText` -/

/-- C7: when no input document yields non-empty extracted text (the
empty input list included), `analyze_document_family` fails with the
`NoExtractableText` failure, for every LLM oracle (so without any LLM
call). -/
theorem analyze_no_extractable_text (parse : List Nat → Option Docx)
    (llm : String → Option LLMFamilyResponse) (documents : List PyDoc)
    (user_context : String) (context_documents : Option (List PyDoc))
    (endpoint api_key : Option String)
    (he : pyTruthy endpoint = true) (hk : pyTruthy api_key = true)
    (h0 : survivors parse documents = []) :
    analyze_document_family parse llm documents user_context
      context_documents endpoint api_key = .error .NoExtractableText := by
  simp only [analyze_document_family, he, hk, h0]
  rfl

theorem analyze_no_extractable_text_witness :
    analyze_document_family parse0 (fun _ => none) [docWs, docLegacy] ""
      none (some "e") (some "k") = .error .NoExtractableText :=
  analyze_no_extractable_text parse0 (fun _ => none) [docWs, docLegacy]
    "" none (some "e") (some "k") (by decide) (by decide) (by decide)

/-! ## C8: missing credentials fail fast with `NotConfigured` -/

/-- C8: when the merged endpoint or API-key credential is absent (falsy),
each LLM-driven operation fails with `NotConfigured` for every choice of
parser, serializer, LLM oracle and input — so no extraction work and no
network call can influence (or be required for) the outcome. -/
theorem llm_operations_not_configured (endpoint api_key : Option String)
    (h : pyTruthy endpoint = false ∨ pyTruthy api_key = false) :
    (∀ parse llm documents user_context context_documents,
      analyze_document_family parse llm documents user_context
        context_documents endpoint api_key = .error .NotConfigured)
    ∧ (∀ dumps llm family_analysis base_document_text user_changes
        target_year organizational_context,
      generate_from_synthesis dumps llm family_analysis base_document_text
        user_changes target_year organizational_context endpoint api_key
        = .error .NotConfigured)
    ∧ (∀ llm user_prompt,
      extract_search_intent llm user_prompt endpoint api_key
        = .error .NotConfigured)
    ∧ (∀ llm user_prompt,
      extract_intent llm user_prompt endpoint api_key
        = .error .NotConfigured) := by
  have hcond : (!pyTruthy endpoint || !pyTruthy api_key) = true := by
    rcases h with h | h <;> simp [h]
  refine ⟨?_, ?_, ?_, ?_⟩ <;> intros <;>
    simp only [analyze_document_family, generate_from_synthesis,
      extract_search_intent, extract_intent, hcond, if_true]

theorem llm_operations_not_configured_witness :
    analyze_document_family parse0 (fun _ => none) [docA] "" none none
        (some "k") = .error .NotConfigured
    ∧ generate_from_synthesis (fun _ => "") (fun _ _ => none)
        (singleDocumentStub extA) "" "" "" "" none (some "k")
        = .error .NotConfigured
    ∧ extract_search_intent (fun _ => none) "p" none (some "k")
        = .error .NotConfigured
    ∧ extract_intent (fun _ => none) "p" none (some "k")
        = .error .NotConfigured := by
  have h := llm_operations_not_configured none (some "k") (Or.inl (by decide))
  exact ⟨h.1 _ _ _ _ _, h.2.1 _ _ _ _ _ _ _, h.2.2.1 _ _, h.2.2.2 _ _⟩

/-! ## C9: search-intent term caps -/

/-- C9: for every parsed search-intent reply, `extract_search_intent`
returns the record containing all five keys, with `search_terms` the
first at most 3 parsed elements and `context_search_terms` the first at
most 4, the caps being applied to the parsed arrays. -/
theorem search_intent_caps (llm : String → Option SearchIntentResponse)
    (user_prompt : String) (endpoint api_key : Option String)
    (resp : SearchIntentResponse)
    (he : pyTruthy endpoint = true) (hk : pyTruthy api_key = true)
    (hllm : llm user_prompt = some resp) :
    extract_search_intent llm user_prompt endpoint api_key = .ok
      { document_type := resp.document_type.getD "unknown"
        search_terms := (resp.search_terms.getD []).take 3
        context_search_terms := (resp.context_search_terms.getD []).take 4
        summary := resp.summary.getD ""
        confidence := resp.confidence.getD confidenceHalf }
    ∧ ((resp.search_terms.getD []).take 3).length ≤ 3
    ∧ ((resp.context_search_terms.getD []).take 4).length ≤ 4 := by
  refine ⟨?_, ?_, ?_⟩
  · simp only [extract_search_intent, he, hk, hllm]
    rfl
  · simp [Nat.min_le_left]
  · simp [Nat.min_le_left]

def respSearch : SearchIntentResponse :=
  ⟨some "memo", some ["a", "b", "c", "d", "e"],
   some ["v", "w", "x", "y", "z"], some "s", none⟩

theorem search_intent_caps_witness :
    extract_search_intent (fun _ => some respSearch) "p" (some "e")
      (some "k") = .ok
        ⟨"memo", ["a", "b", "c"], ["v", "w", "x", "y"], "s",
          confidenceHalf⟩ := by
  have h := search_intent_caps (fun _ => some respSearch) "p" (some "e")
    (some "k") respSearch (by decide) (by decide) rfl
  exact h.1

/-! ## C3: `document_count` is forced to the surviving count -/

/-- C3: with at least two surviving documents and any successfully
parsed LLM reply, the returned `document_count` equals the number of
documents that survived extraction, regardless of the raw input count
and of whatever `document_count` the reply carried. -/
theorem analyze_document_count_forced (parse : List Nat → Option Docx)
    (llm : String → Option LLMFamilyResponse) (documents : List PyDoc)
    (user_context : String) (context_documents : Option (List PyDoc))
    (endpoint api_key : Option String) (resp : LLMFamilyResponse)
    (he : pyTruthy endpoint = true) (hk : pyTruthy api_key = true)
    (h2 : 2 ≤ (survivors parse documents).length)
    (hllm : llm (analysisPrompt parse documents user_context
      context_documents) = some resp) :
    (analyze_document_family parse llm documents user_context
        context_documents endpoint api_key).map
      FamilyAnalysisResult.document_count
      = .ok (survivors parse documents).length := by
  obtain ⟨a, b, t, hst⟩ :
      ∃ a b t, survivors parse documents = a :: b :: t := by
    rcases hs : survivors parse documents with _ | ⟨a, _ | ⟨b, t⟩⟩
    · rw [hs] at h2; simp at h2
    · rw [hs] at h2; simp at h2
    · exact ⟨a, b, t, rfl⟩
  simp only [analyze_document_family, he, hk, hst, hllm]
  rfl

theorem analyze_document_count_forced_witness :
    (analyze_document_family parse0 (fun _ => some respEmpty)
        [docA, docB, docC] "" none (some "e") (some "k")).map
      FamilyAnalysisResult.document_count = .ok 3 := by
  have h := analyze_document_count_forced parse0 (fun _ => some respEmpty)
    [docA, docB, docC] "" none (some "e") (some "k") respEmpty (by decide)
    (by decide) (by decide) rfl
  rw [show (survivors parse0 [docA, docB, docC]).length = 3 from by decide]
    at h
  exact h

/-! ## C4: field merging -/

theorem dictGet_dictSet_self (d : PyDict) (k : String) (v : PyVal) :
    dictGet (dictSet d k v) k = some v := by
  induction d with
  | nil => simp [dictSet, dictGet]
  | cons p rest ih =>
    by_cases h : p.1 = k
    · simp [dictSet, h, dictGet]
    · simp [dictSet, h, dictGet, ih]

theorem dictGet_dictSet_ne (d : PyDict) (k k' : String) (v : PyVal)
    (h : k' ≠ k) : dictGet (dictSet d k v) k' = dictGet d k' := by
  induction d with
  | nil =>
    simp only [dictSet, dictGet]
    rw [if_neg (fun hh => h hh.symm)]
  | cons p rest ih =>
    by_cases hp : p.1 = k
    · simp [dictSet, hp, dictGet, Ne.symm h]
    · simp [dictSet, hp, dictGet, ih]

/-- C4: `merge_fields` is total, returns one output field per input
field in input order, and each output field is the input field with
`new_value` set to the override (and `pre_filled = true`) when the
field's name is a key of the overrides map, and to the field's
`current_value` (and `pre_filled = false`) otherwise; every other key of
the field is unchanged. -/
theorem merge_fields_spec (original_fields : List PyDict)
    (overrides : List (String × String)) :
    (merge_fields original_fields overrides).length
      = original_fields.length
    ∧ ∀ i, i < original_fields.length →
      (∀ v,
        lookupOverride overrides (fieldNameOf (original_fields.getD i []))
            = some v →
          dictGet ((merge_fields original_fields overrides).getD i [])
              "new_value" = some (.str v)
          ∧ dictGet ((merge_fields original_fields overrides).getD i [])
              "pre_filled" = some (.bool true))
      ∧ (lookupOverride overrides (fieldNameOf (original_fields.getD i []))
            = none →
          dictGet ((merge_fields original_fields overrides).getD i [])
              "new_value"
            = some ((dictGet (original_fields.getD i [])
                "current_value").getD (.str ""))
          ∧ dictGet ((merge_fields original_fields overrides).getD i [])
              "pre_filled" = some (.bool false))
      ∧ ∀ key, key ≠ "new_value" → key ≠ "pre_filled" →
          dictGet ((merge_fields original_fields overrides).getD i []) key
            = dictGet (original_fields.getD i []) key := by
  refine ⟨by simp [merge_fields], ?_⟩
  intro i hi
  have h9 : original_fields[i]? = some original_fields[i] :=
    List.getElem?_eq_getElem hi
  have hx : (merge_fields original_fields overrides).getD i []
      = mergeOneField overrides (original_fields.getD i []) := by
    simp [merge_fields, List.getD_eq_getElem?_getD, h9]
  rw [hx]
  refine ⟨?_, ?_, ?_⟩
  · intro v hv
    constructor
    · rw [mergeOneField, hv,
        dictGet_dictSet_ne _ _ _ _ (by decide), dictGet_dictSet_self]
    · rw [mergeOneField, hv, dictGet_dictSet_self]
  · intro hv
    constructor
    · rw [mergeOneField, hv,
        dictGet_dictSet_ne _ _ _ _ (by decide), dictGet_dictSet_self]
    · rw [mergeOneField, hv, dictGet_dictSet_self]
  · intro key hnv hpf
    cases hv : lookupOverride overrides
        (fieldNameOf (original_fields.getD i [])) with
    | none =>
      rw [mergeOneField, hv, dictGet_dictSet_ne _ _ _ _ hpf,
        dictGet_dictSet_ne _ _ _ _ hnv]
    | some v =>
      rw [mergeOneField, hv, dictGet_dictSet_ne _ _ _ _ hpf,
        dictGet_dictSet_ne _ _ _ _ hnv]

def fieldPrincipal : PyDict :=
  [("field_name", .str "principal_name"), ("field_label", .str "Principal"),
   ("current_value", .str "Dr. A"), ("field_type", .str "text"),
   ("required", .bool true)]

def fieldDate : PyDict :=
  [("field_name", .str "date"), ("current_value", .str "Jan 1"),
   ("required", .bool false)]

def overridesOne : List (String × String) := [("principal_name", "Dr. B")]

theorem merge_fields_spec_witness :
    (merge_fields [fieldPrincipal, fieldDate] overridesOne).length = 2
    ∧ dictGet ((merge_fields [fieldPrincipal, fieldDate]
        overridesOne).getD 0 []) "new_value" = some (.str "Dr. B")
    ∧ dictGet ((merge_fields [fieldPrincipal, fieldDate]
        overridesOne).getD 0 []) "pre_filled" = some (.bool true)
    ∧ dictGet ((merge_fields [fieldPrincipal, fieldDate]
        overridesOne).getD 1 []) "new_value" = some (.str "Jan 1")
    ∧ dictGet ((merge_fields [fieldPrincipal, fieldDate]
        overridesOne).getD 1 []) "pre_filled" = some (.bool false)
    ∧ dictGet ((merge_fields [fieldPrincipal, fieldDate]
        overridesOne).getD 0 []) "field_label"
      = dictGet fieldPrincipal "field_label" := by
  have h := merge_fields_spec [fieldPrincipal, fieldDate] overridesOne
  refine ⟨h.1, ((h.2 0 (by decide)).1 "Dr. B" (by decide)).1,
    ((h.2 0 (by decide)).1 "Dr. B" (by decide)).2,
    ((h.2 1 (by decide)).2.1 (by decide)).1,
    ((h.2 1 (by decide)).2.1 (by decide)).2, ?_⟩
  exact (h.2 0 (by decide)).2.2 "field_label" (by decide) (by decide)

/-! ## C5: suffix dispatch of `extract_text` -/

/-- Two suffix tests exclude each other whenever the shorter suffix is
not itself a suffix of the longer one. -/
theorem strEndsWith_excl (s t1 t2 : String)
    (hle : t1.data.length ≤ t2.data.length)
    (hnot : (decide (t1.data <:+ t2.data) : Bool) = false)
    (h : strEndsWith s t1 = true) : strEndsWith s t2 = false := by
  rw [strEndsWith, decide_eq_false_iff_not]
  intro h2
  have h1 : t1.data <:+ s.data := of_decide_eq_true h
  rcases List.suffix_or_suffix_of_suffix h1 h2 with hs | hs
  · exact (of_decide_eq_false hnot) hs
  · have hlen : t1.data.length - t2.data.length = 0 :=
      Nat.sub_eq_zero_of_le hle
    have heq : t2.data = t1.data := by
      rw [List.suffix_iff_eq_drop] at hs
      rw [hs, hlen, List.drop_zero]
    exact (of_decide_eq_false hnot) (heq ▸ List.suffix_refl t1.data)

/-- C5: `extract_text` dispatches case-insensitively on the filename
suffix: it fails with `UnsupportedFormat` exactly when the lowercased
filename ends with `".doc"` and not `".docx"`, and for a `".txt"` suffix
or any unknown suffix it returns the UTF-8 decoding of the bytes,
falling back to Latin-1 when UTF-8 decoding fails. -/
theorem extract_text_dispatch (parse : List Nat → Option Docx)
    (file_bytes : List Nat) (filename : String) :
    ((∃ msg, extract_text parse file_bytes filename
        = .error (.UnsupportedFormat msg))
      ↔ (strEndsWith (pyLower filename) ".doc" = true
         ∧ strEndsWith (pyLower filename) ".docx" = false))
    ∧ (strEndsWith (pyLower filename) ".txt" = true →
        extract_text parse file_bytes filename
          = .ok (extract_text_from_txt file_bytes))
    ∧ (strEndsWith (pyLower filename) ".docx" = false →
       strEndsWith (pyLower filename) ".txt" = false →
       strEndsWith (pyLower filename) ".doc" = false →
        extract_text parse file_bytes filename
          = .ok (extract_text_from_txt file_bytes))
    ∧ extract_text_from_txt file_bytes
        = (match utf8Decode file_bytes with
           | some cps => strOfCodepoints cps
           | none => latin1Decode file_bytes) := by
  refine ⟨⟨?_, ?_⟩, ?_, ?_, rfl⟩
  · rintro ⟨msg, hmsg⟩
    rcases h1 : strEndsWith (pyLower filename) ".docx" with _ | _
    · rcases h2 : strEndsWith (pyLower filename) ".txt" with _ | _
      · rcases h3 : strEndsWith (pyLower filename) ".doc" with _ | _
        · simp [extract_text, h1, h2, h3] at hmsg
        · exact ⟨rfl, rfl⟩
      · simp [extract_text, h1, h2] at hmsg
    · simp [extract_text, h1] at hmsg
  · rintro ⟨h3, h1⟩
    have h2 : strEndsWith (pyLower filename) ".txt" = false :=
      strEndsWith_excl _ ".doc" ".txt" (by decide) (by decide) h3
    exact ⟨"Legacy .doc format not supported. Please convert to .docx",
      by simp [extract_text, h1, h2, h3]⟩
  · intro h2
    have h1 : strEndsWith (pyLower filename) ".docx" = false :=
      strEndsWith_excl _ ".txt" ".docx" (by decide) (by decide) h2
    simp [extract_text, h1, h2]
  · intro h1 h2 h3
    simp [extract_text, h1, h2, h3]

theorem extract_text_dispatch_witness :
    extract_text parse0 bytesHi "NOTES.TXT" = .ok "hi"
    ∧ (∃ msg, extract_text parse0 bytesHi "Old.DOC"
        = .error (.UnsupportedFormat msg))
    ∧ extract_text parse0 [104, 105, 255] "data.csv"
      = .ok (latin1Decode [104, 105, 255]) := by
  refine ⟨?_, ?_, ?_⟩
  · have h := (extract_text_dispatch parse0 bytesHi "NOTES.TXT").2.1
      (by decide)
    rw [h]
    exact congrArg Except.ok (by decide)
  · exact (extract_text_dispatch parse0 bytesHi "Old.DOC").1.mpr
      ⟨by decide, by decide⟩
  · have h := (extract_text_dispatch parse0 [104, 105, 255]
      "data.csv").2.2.1 (by decide) (by decide) (by decide)
    rw [h]
    exact congrArg Except.ok (by decide)

/-! ## C10: `.docx` extraction is total; corrupt files are dropped -/

/-- C10: for a `".docx"` filename `extract_text` always succeeds,
returning `extract_text_from_docx`'s string; when the word-processing
parser fails, that string is `""` (no typed failure), and in batch
analysis such a document is silently dropped from the surviving set
rather than surfacing an error. -/
theorem docx_extraction_never_fails (parse : List Nat → Option Docx)
    (file_bytes : List Nat) (filename : String) (d : PyDoc)
    (rest : List PyDoc)
    (hdocx : strEndsWith (pyLower filename) ".docx" = true) :
    extract_text parse file_bytes filename
      = .ok (extract_text_from_docx parse file_bytes)
    ∧ (parse file_bytes = none →
        extract_text_from_docx parse file_bytes = "")
    ∧ (d.content = some file_bytes →
       strEndsWith (pyLower d.filename) ".docx" = true →
       parse file_bytes = none →
        extractDocEntry parse 6000 d = none
        ∧ survivors parse (d :: rest) = survivors parse rest) := by
  refine ⟨by simp [extract_text, hdocx],
    fun h => by simp [extract_text_from_docx, h], ?_⟩
  intro hc hdf hp
  have hnone : extractDocEntry parse 6000 d = none := by
    simp [extractDocEntry, hc, extract_text, hdf, extract_text_from_docx,
      hp, show (pyStrip "").data.isEmpty = true from by decide]
  exact ⟨hnone, by simp [survivors, hnone]⟩

/-- A `.docx` document whose bytes the word-processing parser rejects. -/
def docCorrupt : PyDoc := ⟨"corrupt.DocX", some [0, 1], none⟩

theorem docx_extraction_never_fails_witness :
    extract_text parse0 [0, 1] "corrupt.DocX" = .ok ""
    ∧ survivors parse0 [docCorrupt, docA] = survivors parse0 [docA] := by
  have h := docx_extraction_never_fails parse0 [0, 1] "corrupt.DocX"
    docCorrupt [docA] (by decide)
  constructor
  · rw [h.1]
    exact congrArg Except.ok (h.2.1 rfl)
  · exact (h.2.2 rfl (by decide) rfl).2

/-! ## Order lemmas for the chronological sort -/

theorem charListLe_total : ∀ as bs : List Char,
    charListLe as bs = true ∨ charListLe bs as = true := by
  intro as
  induction as with
  | nil => intro bs; exact Or.inl rfl
  | cons a as ih =>
    intro bs
    cases bs with
    | nil => exact Or.inr rfl
    | cons b bs =>
      rcases lt_trichotomy a b with h | h | h
      · left; simp [charListLe, h]
      · subst h
        rcases ih bs with h2 | h2
        · left; simp [charListLe, h2]
        · right; simp [charListLe, h2]
      · right; simp [charListLe, h]

theorem charListLe_trans : ∀ as bs cs : List Char,
    charListLe as bs = true → charListLe bs cs = true →
    charListLe as cs = true := by
  intro as
  induction as with
  | nil => intros; rfl
  | cons a as ih =>
    intro bs cs h1 h2
    cases bs with
    | nil => simp [charListLe] at h1
    | cons b bs =>
      cases cs with
      | nil => simp [charListLe] at h2
      | cons c cs =>
        rcases lt_trichotomy a b with hab | hab | hab
        · rcases lt_trichotomy b c with hbc | hbc | hbc
          · simp [charListLe, lt_trans hab hbc]
          · subst hbc; simp [charListLe, hab]
          · simp [charListLe, lt_asymm hbc, hbc] at h2
        · subst hab
          rcases lt_trichotomy a c with hac | hac | hac
          · simp [charListLe, hac]
          · subst hac
            simp only [charListLe, lt_self_iff_false, if_false] at h1 h2 ⊢
            exact ih bs cs h1 h2
          · simp [charListLe, lt_asymm hac, hac] at h2
        · simp [charListLe, lt_asymm hab, hab] at h1

theorem charListLe_antisymm : ∀ as bs : List Char,
    charListLe as bs = true → charListLe bs as = true → as = bs := by
  intro as
  induction as with
  | nil =>
    intro bs _ h2
    cases bs with
    | nil => rfl
    | cons b bs => simp [charListLe] at h2
  | cons a as ih =>
    intro bs h1 h2
    cases bs with
    | nil => simp [charListLe] at h1
    | cons b bs =>
      rcases lt_trichotomy a b with hab | hab | hab
      · simp [charListLe, lt_asymm hab, hab] at h2
      · subst hab
        simp only [charListLe, lt_self_iff_false, if_false] at h1 h2
        rw [ih bs h1 h2]
      · simp [charListLe, lt_asymm hab, hab] at h1

theorem charListLe_of_lt : ∀ as bs : List Char,
    charListLt as bs = true → charListLe as bs = true := by
  intro as
  induction as with
  | nil => intros; rfl
  | cons a as ih =>
    intro bs h
    cases bs with
    | nil => simp [charListLt] at h
    | cons b bs =>
      rcases lt_trichotomy a b with hab | hab | hab
      · simp [charListLe, hab]
      · subst hab
        simp only [charListLt, lt_self_iff_false, if_false] at h
        simp only [charListLe, lt_self_iff_false, if_false]
        exact ih bs h
      · simp [charListLt, lt_asymm hab, hab] at h

theorem charListLt_ne : ∀ as bs : List Char,
    charListLt as bs = true → as ≠ bs := by
  intro as
  induction as with
  | nil =>
    intro bs h
    cases bs with
    | nil => simp [charListLt] at h
    | cons b bs => simp
  | cons a as ih =>
    intro bs h
    cases bs with
    | nil => simp [charListLt] at h
    | cons b bs =>
      rcases lt_trichotomy a b with hab | hab | hab
      · simp [ne_of_lt hab]
      · subst hab
        simp only [charListLt, lt_self_iff_false, if_false] at h
        simp [ih bs h]
      · simp [charListLt, lt_asymm hab, hab] at h

theorem strLeb_antisymm (a b : String) (h1 : strLeb a b = true)
    (h2 : strLeb b a = true) : a = b := by
  cases a with
  | mk da =>
    cases b with
    | mk db => exact congrArg String.mk (charListLe_antisymm da db h1 h2)

theorem strLeb_of_ltb (a b : String) (h : strLtb a b = true) :
    strLeb a b = true :=
  charListLe_of_lt a.data b.data h

theorem strLtb_ne (a b : String) (h : strLtb a b = true) : a ≠ b :=
  fun he => charListLt_ne a.data b.data h (congrArg String.data he)

theorem strLeb_trans (a b c : String) (h1 : strLeb a b = true)
    (h2 : strLeb b c = true) : strLeb a c = true :=
  charListLe_trans a.data b.data c.data h1 h2

instance : IsTotal ExtractedDoc docLe where
  total a b := charListLe_total (createdKey a).data (createdKey b).data

instance : IsTrans ExtractedDoc docLe where
  trans a b c h1 h2 :=
    charListLe_trans (createdKey a).data (createdKey b).data
      (createdKey c).data h1 h2

/-- Two lists that are permutations of each other, both sorted by a
string key, with no duplicate keys, are equal: the stable sort's output
is determined. -/
theorem sorted_perm_eq_of_nodup_keys {α : Type} (key : α → String) :
    ∀ l1 l2 : List α, l1.Perm l2 →
      l1.Pairwise (fun a b => strLeb (key a) (key b) = true) →
      l2.Pairwise (fun a b => strLeb (key a) (key b) = true) →
      (l1.map key).Nodup → l1 = l2 := by
  intro l1
  induction l1 with
  | nil =>
    intro l2 hp _ _ _
    exact hp.nil_eq
  | cons a t1 ih =>
    intro l2 hp hs1 hs2 hnd
    cases l2 with
    | nil => exact absurd hp.symm.nil_eq (by simp)
    | cons b t2 =>
      by_cases hab : a = b
      · subst hab
        have ht := ih t2 hp.cons_inv hs1.of_cons hs2.of_cons
          (List.nodup_cons.mp (by simpa using hnd)).2
        rw [ht]
      · exfalso
        have ha2 : a ∈ b :: t2 := hp.subset (List.mem_cons_self a t1)
        have hat2 : a ∈ t2 := by
          rcases List.mem_cons.mp ha2 with h | h
          · exact absurd h hab
          · exact h
        have hb1 : b ∈ a :: t1 := hp.symm.subset (List.mem_cons_self b t2)
        have hbt1 : b ∈ t1 := by
          rcases List.mem_cons.mp hb1 with h | h
          · exact absurd h.symm hab
          · exact h
        have hle1 : strLeb (key a) (key b) = true :=
          (List.pairwise_cons.mp hs1).1 b hbt1
        have hle2 : strLeb (key b) (key a) = true :=
          (List.pairwise_cons.mp hs2).1 a hat2
        have hkey : key a = key b := strLeb_antisymm _ _ hle1 hle2
        have hna : key a ∉ t1.map key :=
          (List.nodup_cons.mp (by simpa using hnd)).1
        exact hna (hkey ▸ List.mem_map_of_mem key hbt1)

/-! ## C6: chronological ordering of the comparison -/

/-- C6: with three surviving documents carrying strictly increasing
`created` timestamps, the sorted list used for the comparison prompt and
for last-document selection is exactly the chronological order,
regardless of the input order; consequently the prompt's document
sections follow that order and the chronologically last document is the
fallback selection. -/
theorem chronological_sort (parse : List Nat → Option Docx)
    (documents : List PyDoc) (d1 d2 d3 : ExtractedDoc)
    (hperm : (survivors parse documents).Perm [d1, d2, d3])
    (h12 : strLtb (createdKey d1) (createdKey d2) = true)
    (h23 : strLtb (createdKey d2) (createdKey d3) = true) :
    sortedSurvivors parse documents = [d1, d2, d3]
    ∧ (sortedSurvivors parse documents).getLast? = some d3
    ∧ ∀ user_context,
        comparisonBase (sortedSurvivors parse documents) user_context
          = comparisonBase [d1, d2, d3] user_context := by
  have hle12 := strLeb_of_ltb _ _ h12
  have hle23 := strLeb_of_ltb _ _ h23
  have hle13 := strLeb_trans _ _ _ hle12 hle23
  have hne12 := strLtb_ne _ _ h12
  have hne23 := strLtb_ne _ _ h23
  have hne13 : createdKey d1 ≠ createdKey d3 := by
    intro he
    have hle32 : strLeb (createdKey d3) (createdKey d2) = true := he ▸ hle12
    exact hne23 (strLeb_antisymm _ _ hle23 hle32)
  have hmain : [d1, d2, d3] = sortedSurvivors parse documents := by
    apply sorted_perm_eq_of_nodup_keys createdKey
    · exact hperm.symm.trans (List.perm_insertionSort docLe _).symm
    · exact List.pairwise_cons.mpr
        ⟨fun x hx => by
          rcases List.mem_cons.mp hx with h | h
          · rw [h]; exact hle12
          · rw [List.mem_singleton.mp h]; exact hle13,
         List.pairwise_cons.mpr
          ⟨fun x hx => by rw [List.mem_singleton.mp hx]; exact hle23,
           List.pairwise_singleton _ _⟩⟩
    · exact List.sorted_insertionSort docLe _
    · simp [List.nodup_cons, hne12, hne13, hne23]
  refine ⟨hmain.symm, ?_, fun uc => by rw [← hmain]⟩
  rw [← hmain]
  rfl

theorem chronological_sort_witness :
    sortedSurvivors parse0 [docC, docA, docB] = [extA, extB, extC]
    ∧ (sortedSurvivors parse0 [docC, docA, docB]).getLast? = some extC :=
  have h := chronological_sort parse0 [docC, docA, docB] extA extB extC
    (by
      rw [show survivors parse0 [docC, docA, docB] = [extC, extA, extB]
        from by decide]
      exact (List.Perm.swap extA extC [extB]).trans
        (List.Perm.cons extA (List.Perm.swap extB extC [])))
    (by decide) (by decide)
  ⟨h.1, h.2.1⟩

/-! ## C1: unresolvable `recommended_base` -/

/-- An LLM reply naming a `recommended_base` absent from the input
set. -/
def respMissing : LLMFamilyResponse :=
  ⟨none, none, none, none, none, some "missing.docx", none, none, none⟩

/-- C1 counterexample: on a two-document call whose LLM reply names
`"missing.docx"`, the call completes successfully and
`base_document_text` is substituted with the chronologically last
document's text, but the returned `recommended_base` is still
`"missing.docx"`, which is not one of the input filenames - so the
claimed filename substitution (and the claimed resolution of
`recommended_base` to an input filename) does not happen. -/
theorem unresolved_base_cex :
    (analyze_document_family parse0 (fun _ => some respMissing)
        [docA, docB] "" none (some "e") (some "k")).toOption.map
      (fun r => (r.recommended_base, r.base_document_text))
      = some (some "missing.docx", "yo")
    ∧ "missing.docx" ∉ [docA, docB].map PyDoc.filename := by
  exact ⟨by decide, by decide⟩

/-- C1 amended: with at least two surviving documents and a parsed LLM
reply whose `recommended_base` matches no surviving filename, the call
still completes successfully and `base_document_text` is substituted
with the chronologically last document's text; the returned
`recommended_base` field itself is left as the reply returned it (it is
not replaced by the substitute's filename). -/
theorem unresolved_base_substitutes_text (parse : List Nat → Option Docx)
    (llm : String → Option LLMFamilyResponse) (documents : List PyDoc)
    (user_context : String) (context_documents : Option (List PyDoc))
    (endpoint api_key : Option String) (resp : LLMFamilyResponse)
    (he : pyTruthy endpoint = true) (hk : pyTruthy api_key = true)
    (h2 : 2 ≤ (survivors parse documents).length)
    (hllm : llm (analysisPrompt parse documents user_context
      context_documents) = some resp)
    (hnomatch : ∀ dt ∈ survivors parse documents,
      dt.filename ≠ resp.recommended_base.getD "") :
    (analyze_document_family parse llm documents user_context
        context_documents endpoint api_key).toOption.map
      (fun r => (r.recommended_base, r.base_document_text))
      = some (resp.recommended_base,
        ((sortedSurvivors parse documents).getLast?.map
          ExtractedDoc.text).getD "") := by
  obtain ⟨a, b, t, hst⟩ :
      ∃ a b t, survivors parse documents = a :: b :: t := by
    rcases hs : survivors parse documents with _ | ⟨a, _ | ⟨b, t⟩⟩
    · rw [hs] at h2; simp at h2
    · rw [hs] at h2; simp at h2
    · exact ⟨a, b, t, rfl⟩
  have hfind : (List.insertionSort docLe (a :: b :: t)).find?
      (fun dt => decide (dt.filename = resp.recommended_base.getD ""))
      = none := by
    rw [List.find?_eq_none]
    intro x hx
    have hx' : x ∈ survivors parse documents := by
      rw [hst]
      exact (List.mem_insertionSort docLe).mp hx
    simpa using hnomatch x hx'
  have hne : List.insertionSort docLe (a :: b :: t) ≠ [] := by
    intro h
    have hlen := congrArg List.length h
    rw [List.length_insertionSort] at hlen
    simp at hlen
  obtain ⟨x, hx⟩ :
      ∃ x, (List.insertionSort docLe (a :: b :: t)).getLast? = some x := by
    cases hgl : (List.insertionSort docLe (a :: b :: t)).getLast? with
    | none => exact absurd (List.getLast?_eq_none_iff.mp hgl) hne
    | some x => exact ⟨x, rfl⟩
  have hie : (List.insertionSort docLe (a :: b :: t)).isEmpty = false := by
    cases hl : List.insertionSort docLe (a :: b :: t) with
    | nil => exact absurd hl hne
    | cons y ys => rfl
  simp only [analyze_document_family, he, hk, hst, hllm, hfind, hie, hx,
    sortedSurvivors]
  rfl

theorem unresolved_base_substitutes_text_witness :
    (analyze_document_family parse0 (fun _ => some respMissing)
        [docA, docB] "" none (some "e") (some "k")).toOption.map
      (fun r => (r.recommended_base, r.base_document_text))
      = some (some "missing.docx", "yo") := by
  have h := unresolved_base_substitutes_text parse0
    (fun _ => some respMissing) [docA, docB] "" none (some "e") (some "k")
    respMissing (by decide) (by decide) (by decide) rfl (by decide)
  rw [h]
  decide
